import Mathlib

/-!
Verification development for the scanwifi alert engine
(`src/backend/alerts.py` and `src/backend/routes/alerts.py`).

The Python code is shallowly embedded as executable Lean definitions:

* snapshot records (`AP`, `Device`) carry the string fields the detector
  reads; a missing/falsy field is modelled as the empty string, matching
  the `if not ssid or not bssid: continue` truthiness checks;
* `str.format(**details)` is modelled by `renderTemplate`, which returns
  `none` exactly when a placeholder of the template is absent from the
  details mapping (a `KeyError` in Python), so alert construction and the
  whole analysis cycle live in `Option`;
* the `AlertSystem` state stores every `Alert` object ever allocated in a
  `heap` list; `active_alerts` (insertion-ordered dict) and
  `alert_history` reference heap positions, which models Python's object
  aliasing between the active map and the history list;
* timestamps are integers (seconds); `timedelta(hours=h)` is `h * 3600`.
-/

namespace ScanWifi

/-- Python `str.upper` restricted to ASCII letters, which is all the
detector's inputs (MAC addresses, SSIDs, encryption names) use. -/
def upperChar (c : Char) : Char :=
  if 'a' ≤ c ∧ c ≤ 'z' then Char.ofNat (c.toNat - 32) else c

def upperString (s : String) : String :=
  String.mk (s.data.map upperChar)

/-- Python `mac.split(':')` (non-empty separator semantics). -/
def splitOnColon : List Char → List (List Char)
  | [] => [[]]
  | c :: rest =>
    if c = ':' then [] :: splitOnColon rest
    else
      match splitOnColon rest with
      | [] => [[c]]
      | g :: gs => (c :: g) :: gs

/-- Python `':'.join(groups)`. -/
def joinColon : List (List Char) → List Char
  | [] => []
  | [g] => g
  | g :: g2 :: gs => g ++ ':' :: joinColon (g2 :: gs)

/-- `':'.join(mac.split(':')[:3])` — the vendor prefix (OUI) of a MAC. -/
def ouiOf (mac : String) : String :=
  String.mk (joinColon ((splitOnColon mac.data).take 3))

/-- A value stored in an alert's `details` dict. -/
inductive DVal where
  | s (v : String)
  | n (v : Nat)
  | ls (v : List String)
deriving DecidableEq

/-- Python `str()` of a details value, as used by template substitution. -/
def dvalStr : DVal → String
  | DVal.s v => v
  | DVal.n v => toString v
  | DVal.ls v => toString v

/-- First-match lookup in an association list keyed by strings (models a
Python dict lookup; dict keys are unique, so first match is the match). -/
def lookupS {α : Type} : List (String × α) → String → Option α
  | [], _ => none
  | (k, v) :: rest, key => if k = key then some v else lookupS rest key

/-- Python dict assignment `m[k] = v`: update in place when the key
exists, append otherwise (insertion order preserved). -/
def updateS {α : Type} : List (String × α) → String → α → List (String × α)
  | [], k, v => [(k, v)]
  | (k', v') :: rest, k, v =>
    if k' = k then (k, v) :: rest else (k', v') :: updateS rest k v

/-- Python `set.add`: keep first-seen order, ignore duplicates. -/
def insertNew (l : List String) (x : String) : List String :=
  if x ∈ l then l else l ++ [x]

/-- `oui_devices.setdefault(oui, set()).add(mac)` on an insertion-ordered
dict of mac-sets. -/
def addToGroup : List (String × List String) → String → String → List (String × List String)
  | [], oui, mac => [(oui, [mac])]
  | (k, ms) :: rest, oui, mac =>
    if k = oui then (k, insertNew ms mac) :: rest
    else (k, ms) :: addToGroup rest oui mac

/-- A parsed segment of a `str.format` template. -/
inductive Seg where
  | lit (s : String)
  | ph (name : String)
deriving DecidableEq

def lbrace : Char := Char.ofNat 123

def rbrace : Char := Char.ofNat 125

/-- Fuel-indexed parser of a format template into literal and placeholder
segments (the templates in the rule catalog use only plain `\x7bname\x7d`
placeholders; the fuel always suffices at `length + 1`). -/
def parseSegsF : Nat → List Char → Option (List Seg)
  | 0, _ => none
  | _ + 1, [] => some []
  | fuel + 1, c :: rest =>
    if c = lbrace then
      match rest.dropWhile (fun ch => ch ≠ rbrace) with
      | [] => none
      | _ :: tail =>
        Option.map (fun segs => Seg.ph (String.mk (rest.takeWhile (fun ch => ch ≠ rbrace))) :: segs)
          (parseSegsF fuel tail)
    else
      Option.map
        (fun segs => Seg.lit (String.mk ((c :: rest).takeWhile (fun ch => ch ≠ lbrace))) :: segs)
        (parseSegsF fuel ((c :: rest).dropWhile (fun ch => ch ≠ lbrace)))

def parseSegs (tmpl : String) : Option (List Seg) :=
  parseSegsF (tmpl.data.length + 1) tmpl.data

/-- Substitute details into parsed segments; `none` models the `KeyError`
raised by `str.format` on a placeholder missing from details. -/
def renderSegs (details : List (String × DVal)) : List Seg → Option String
  | [] => some ""
  | Seg.lit s :: rest => Option.map (fun r => s ++ r) (renderSegs details rest)
  | Seg.ph n :: rest =>
    match lookupS details n with
    | none => none
    | some v => Option.map (fun r => dvalStr v ++ r) (renderSegs details rest)

/-- `template.format(**details)`. -/
def renderTemplate (tmpl : String) (details : List (String × DVal)) : Option String :=
  match parseSegs tmpl with
  | none => none
  | some segs => renderSegs details segs

/-- One entry of `_initialize_alert_rules` (the threshold bags are
embedded as the dedicated constants below, mirroring the two places the
source reads them). -/
structure Rule where
  enabled : Bool
  severity : String
  message : String
  suppress_after : Int
deriving DecidableEq

/-- `self.alert_rules.get(alert_type)` over the static rule catalog. -/
def alertRules (t : String) : Option Rule :=
  if t = "rogue_ap" then
    some ⟨true, "high", "Rogue access point detected: {ssid} ({bssid})", 24⟩
  else if t = "mac_spoofing" then
    some ⟨true, "high", "Possible MAC address spoofing detected for vendor {vendor}", 1⟩
  else if t = "weak_encryption" then
    some ⟨true, "medium", "Weak encryption detected: {ssid} uses {encryption}", 24⟩
  else none

/-- `alert_rules['weak_encryption']['thresholds']['weak_encryption_types']`. -/
def weakEncryptionTypes : List String := ["WEP", "WPA"]

/-- `alert_rules['mac_spoofing']['thresholds']['same_vendor_macs']`. -/
def sameVendorMacs : Nat := 3

/-- The static OUI-to-vendor table of `_get_vendor_name`. -/
def ouiMap : List (String × String) :=
  [("00:1A:2B", "Cisco"), ("00:0C:29", "VMware"), ("00:50:56", "VMware"),
   ("00:1C:42", "Parallels"), ("08:00:27", "Oracle VirtualBox"),
   ("08:00:0B", "Intel"), ("00:1B:63", "Apple"), ("00:03:93", "Apple"),
   ("00:0A:27", "Apple"), ("00:1D:4F", "Apple"), ("00:1E:52", "Apple")]

/-- `_get_vendor_name`: empty string when the OUI is unknown. -/
def getVendorName (oui : String) : String :=
  match lookupS ouiMap (upperString oui) with
  | some v => v
  | none => ""

/-- `rule.get('suppress_after', 24)` after `alert_rules.get(type, \x7b\x7d)`. -/
def suppressAfterHours (t : String) : Int :=
  match alertRules t with
  | some r => r.suppress_after
  | none => 24

def ruleSeverity (t : String) : String :=
  match alertRules t with
  | some r => r.severity
  | none => "medium"

def ruleMessage (t : String) : String :=
  match alertRules t with
  | some r => r.message
  | none => "Security alert detected"

/-- The `Alert` dataclass, with `createdAt` as integer seconds. -/
structure Alert where
  alert_id : String
  alert_type : String
  severity : String
  message : String
  timestamp : Int
  source : String
  details : List (String × DVal)
  acknowledged : Bool
deriving DecidableEq

/-- `_create_alert`: `none` models the `KeyError` escaping from
`message.format(**details)`. -/
def createAlert (alert_type alert_id source : String) (details : List (String × DVal))
    (now : Int) : Option Alert :=
  match renderTemplate (ruleMessage alert_type) details with
  | none => none
  | some msg =>
    some { alert_id := alert_id, alert_type := alert_type,
           severity := ruleSeverity alert_type, message := msg,
           timestamp := now, source := source, details := details,
           acknowledged := false }

/-- An access-point record; an absent/falsy field is the empty string. -/
structure AP where
  ssid : String
  bssid : String
  encryption : String
deriving DecidableEq

/-- A device record; an absent/falsy `mac` is the empty string. -/
structure Device where
  mac : String
deriving DecidableEq

/-- Details of a `mac_spoofing` candidate (`_get_vendor_name(oui) or
"OUI ..."` fallback, member list truncated to 5). -/
def spoofDetails (oui : String) (macs : List String) : List (String × DVal) :=
  let vendor := if getVendorName oui = "" then "OUI " ++ oui else getVendorName oui
  [("vendor", DVal.s vendor), ("oui", DVal.s oui),
   ("device_count", DVal.n macs.length), ("mac_addresses", DVal.ls (macs.take 5))]

/-- The `_create_alert('rogue_ap', ...)` call of `analyze_devices`. -/
def rogueAlertOf (ap : AP) (now : Int) : Option Alert :=
  createAlert "rogue_ap" ("rogue_ap_" ++ ap.bssid) ap.bssid
    [("ssid", DVal.s ap.ssid), ("bssid", DVal.s ap.bssid)] now

/-- The `_create_alert('weak_encryption', ...)` call of `analyze_devices`. -/
def weakAlertOf (ap : AP) (now : Int) : Option Alert :=
  createAlert "weak_encryption" ("weak_enc_" ++ ap.bssid) ap.bssid
    [("ssid", DVal.s ap.ssid), ("bssid", DVal.s ap.bssid),
     ("encryption", DVal.s (upperString ap.encryption))] now

/-- The `_create_alert('mac_spoofing', ...)` call of `analyze_devices`. -/
def spoofAlertOf (oui : String) (macs : List String) (now : Int) : Option Alert :=
  createAlert "mac_spoofing" ("mac_spoofing_" ++ oui) oui (spoofDetails oui macs) now

/-- The rogue-AP test of `analyze_devices`:
`ssid in ap_ssids and bssid != ap_ssids[ssid]`. -/
def rogueHit (seen : List (String × String)) (ap : AP) : Bool :=
  match lookupS seen ap.ssid with
  | some b => decide (ap.bssid ≠ b)
  | none => false

/-- The `else: ap_ssids[ssid] = bssid` branch: the first-seen map is only
written when the rogue test did not fire. -/
def seenStep (seen : List (String × String)) (ap : AP) : List (String × String) :=
  if rogueHit seen ap then seen else updateS seen ap.ssid ap.bssid

/-- The first loop of `analyze_devices`: rogue-AP and weak-encryption
candidates, iterating access points in input order while threading the
`ap_ssids` first-seen map. -/
def apScan (now : Int) : List AP → List (String × String) → Option (List Alert)
  | [], _ => some []
  | ap :: rest, seen =>
    if ap.ssid = "" ∨ ap.bssid = "" then
      apScan now rest seen
    else
      let rogues : Option (List Alert) :=
        if rogueHit seen ap then Option.map (fun a => [a]) (rogueAlertOf ap now)
        else some []
      let weaks : Option (List Alert) :=
        if upperString ap.encryption ∈ weakEncryptionTypes then
          Option.map (fun a => [a]) (weakAlertOf ap now)
        else some []
      match rogues, weaks, apScan now rest (seenStep seen ap) with
      | some r, some w, some t => some (r ++ w ++ t)
      | _, _, _ => none

/-- One step of the device-grouping loop: skip falsy or colon-free MACs,
otherwise add the uppercased MAC to its OUI group. -/
def deviceStep (g : List (String × List String)) (d : Device) : List (String × List String) :=
  let mac := upperString d.mac
  if mac = "" ∨ ¬ (':' ∈ mac.data) then g
  else addToGroup g (ouiOf mac) mac

/-- The `oui_devices` mapping built by `analyze_devices`. -/
def ouiGroups (devices : List Device) : List (String × List String) :=
  devices.foldl deviceStep []

/-- The MAC-spoofing loop over the grouped devices. -/
def spoofCands (now : Int) : List (String × List String) → Option (List Alert)
  | [] => some []
  | (oui, macs) :: rest =>
    if sameVendorMacs ≤ macs.length then
      match spoofAlertOf oui macs now, spoofCands now rest with
      | some a, some t => some (a :: t)
      | _, _ => none
    else spoofCands now rest

/-- The full candidate list produced by one `analyze_devices` call (AP
alerts first, then MAC-spoofing alerts, as appended by the source). -/
def detectCands (devices : List Device) (access_points : List AP) (now : Int) :
    Option (List Alert) :=
  match apScan now access_points [], spoofCands now (ouiGroups devices) with
  | some apAlerts, some spoofAlerts => some (apAlerts ++ spoofAlerts)
  | _, _ => none

/-- The mutable state of the `AlertSystem` class. `heap` holds every
`Alert` object ever allocated, in allocation order; `active_alerts` (an
insertion-ordered dict) and `alert_history` hold heap positions, which
models the aliasing between the Python dict and list that share the same
`Alert` objects. -/
structure AlertSystem where
  heap : List Alert
  active_alerts : List (String × Nat)
  alert_history : List Nat
  acknowledged_alerts : List String
deriving DecidableEq

def emptySystem : AlertSystem := ⟨[], [], [], []⟩

/-- `_add_alert`: insert into the active dict and append to history only
when the id is not already active. -/
def addAlert (st : AlertSystem) (a : Alert) : AlertSystem :=
  if (lookupS st.active_alerts a.alert_id).isSome then st
  else
    { st with
      heap := st.heap ++ [a],
      active_alerts := st.active_alerts ++ [(a.alert_id, st.heap.length)],
      alert_history := st.alert_history ++ [st.heap.length] }

/-- The retention test of `_cleanup_old_alerts`: an active entry survives
unless `now - alert.timestamp > timedelta(hours=suppress_hours)`. The
`none` branch is unreachable for states built by the operations here. -/
def keepAlert (heap : List Alert) (now : Int) (p : String × Nat) : Bool :=
  match heap[p.2]? with
  | some a => decide (now - a.timestamp ≤ suppressAfterHours a.alert_type * 3600)
  | none => true

/-- `_cleanup_old_alerts` at an explicit wall-clock instant. -/
def cleanupOldAlerts (st : AlertSystem) (now : Int) : AlertSystem :=
  { st with active_alerts := st.active_alerts.filter (keepAlert st.heap now) }

/-- `analyze_devices`: build all candidates, admit them, clean up, and
return the full candidate list (the source returns `new_alerts`, the
candidates, not the admitted subset). `none` models an exception escaping
from `_create_alert`. -/
def analyzeDevices (st : AlertSystem) (devices : List Device) (access_points : List AP)
    (now : Int) : Option (List Alert × AlertSystem) :=
  match detectCands devices access_points now with
  | none => none
  | some cands =>
    let st1 := cands.foldl addAlert st
    some (cands, cleanupOldAlerts st1 now)

/-- Outcome of the acknowledge route: HTTP 404 or the acknowledged alert. -/
inductive AckResult where
  | notFound
  | ok (a : Alert)
deriving DecidableEq

/-- `acknowledge_alert` from `routes/alerts.py`: look the id up in the
active dict only; on a hit mutate the shared object's `acknowledged` flag
in place and add the id to the acknowledged set. -/
def acknowledgeAlert (st : AlertSystem) (alert_id : String) : AckResult × AlertSystem :=
  match lookupS st.active_alerts alert_id with
  | none => (AckResult.notFound, st)
  | some idx =>
    match st.heap[idx]? with
    | none => (AckResult.notFound, st)
    | some a =>
      let a' := { a with acknowledged := true }
      (AckResult.ok a',
       { st with
         heap := st.heap.set idx a',
         acknowledged_alerts :=
           if alert_id ∈ st.acknowledged_alerts then st.acknowledged_alerts
           else st.acknowledged_alerts ++ [alert_id] })

/-- The alerts currently in the active dict, in insertion order. -/
def listActive (st : AlertSystem) : List Alert :=
  st.active_alerts.filterMap (fun p => st.heap[p.2]?)

/-- The full history log, in append order. -/
def listHistory (st : AlertSystem) : List Alert :=
  st.alert_history.filterMap (fun i => st.heap[i]?)

/-- The alert ids along the history log (dangling positions, which never
arise, read as `""`). -/
def historyIds (st : AlertSystem) : List String :=
  st.alert_history.map (fun i => (Option.map Alert.alert_id st.heap[i]?).getD "")

/-- Well-formedness: every history position points into the heap. All
reachable states satisfy it. -/
def histWF (st : AlertSystem) : Prop :=
  ∀ i ∈ st.alert_history, i < st.heap.length

/-- The first BSSID among the (well-formed) access points declaring a
given SSID — the canonical BSSID the rogue-AP check compares against. -/
def firstBssid : List AP → String → Option String
  | [], _ => none
  | ap :: rest, s =>
    if ap.ssid ≠ "" ∧ ap.bssid ≠ "" ∧ ap.ssid = s then some ap.bssid
    else firstBssid rest s

/-! ### Basic lemmas about the association-list helpers -/

theorem lookupS_append {α : Type} (l1 l2 : List (String × α)) (k : String) :
    lookupS (l1 ++ l2) k =
      match lookupS l1 k with
      | some v => some v
      | none => lookupS l2 k := by
  induction l1 with
  | nil => simp [lookupS]
  | cons p rest ih =>
    obtain ⟨k', v'⟩ := p
    by_cases h : k' = k <;> simp [lookupS, h, ih]

theorem lookupS_updateS_self {α : Type} (l : List (String × α)) (k : String) (v : α) :
    lookupS (updateS l k v) k = some v := by
  induction l with
  | nil => simp [updateS, lookupS]
  | cons p rest ih =>
    obtain ⟨k', v'⟩ := p
    by_cases h : k' = k <;> simp [updateS, lookupS, h, ih]

theorem lookupS_updateS_ne {α : Type} (l : List (String × α)) (k k' : String) (v : α)
    (h : k' ≠ k) : lookupS (updateS l k v) k' = lookupS l k' := by
  have hk : ¬ k = k' := fun hkk => h hkk.symm
  induction l with
  | nil => simp [updateS, lookupS, hk]
  | cons p rest ih =>
    obtain ⟨k2, v2⟩ := p
    by_cases h2 : k2 = k
    · subst h2
      simp [updateS, lookupS, hk]
    · by_cases h3 : k2 = k' <;> simp [updateS, lookupS, h2, h3, ih, h]

/-! ### Rendering always succeeds on the detector's candidate shapes -/

theorem parseSegs_rogue :
    parseSegs (ruleMessage "rogue_ap") =
      some [Seg.lit "Rogue access point detected: ", Seg.ph "ssid",
            Seg.lit " (", Seg.ph "bssid", Seg.lit ")"] := by decide

theorem parseSegs_spoof :
    parseSegs (ruleMessage "mac_spoofing") =
      some [Seg.lit "Possible MAC address spoofing detected for vendor ",
            Seg.ph "vendor"] := by decide

theorem parseSegs_weak :
    parseSegs (ruleMessage "weak_encryption") =
      some [Seg.lit "Weak encryption detected: ", Seg.ph "ssid",
            Seg.lit " uses ", Seg.ph "encryption"] := by decide

theorem render_rogue (a b : String) :
    ∃ m, renderTemplate (ruleMessage "rogue_ap")
        [("ssid", DVal.s a), ("bssid", DVal.s b)] = some m := by
  rw [renderTemplate, parseSegs_rogue]
  simp [renderSegs, lookupS]

theorem render_weak (a b c : String) :
    ∃ m, renderTemplate (ruleMessage "weak_encryption")
        [("ssid", DVal.s a), ("bssid", DVal.s b), ("encryption", DVal.s c)] = some m := by
  rw [renderTemplate, parseSegs_weak]
  simp [renderSegs, lookupS]

theorem render_spoof (oui : String) (macs : List String) :
    ∃ m, renderTemplate (ruleMessage "mac_spoofing") (spoofDetails oui macs) = some m := by
  rw [renderTemplate, parseSegs_spoof]
  simp [renderSegs, lookupS, spoofDetails]

theorem createAlert_of_render {t i src : String} {d : List (String × DVal)} {now : Int}
    {m : String} (h : renderTemplate (ruleMessage t) d = some m) :
    createAlert t i src d now =
      some { alert_id := i, alert_type := t, severity := ruleSeverity t,
             message := m, timestamp := now, source := src, details := d,
             acknowledged := false } := by
  simp [createAlert, h]

theorem createAlert_fields {t i src : String} {dd : List (String × DVal)} {now : Int}
    {x : Alert} (h : createAlert t i src dd now = some x) :
    x.alert_id = i ∧ x.alert_type = t ∧ x.severity = ruleSeverity t ∧ x.timestamp = now ∧
    x.source = src ∧ x.details = dd ∧ x.acknowledged = false := by
  unfold createAlert at h
  cases hr : renderTemplate (ruleMessage t) dd with
  | none => rw [hr] at h; cases h
  | some m =>
    rw [hr] at h
    injection h with h'
    subst h'
    exact ⟨rfl, rfl, rfl, rfl, rfl, rfl, rfl⟩

theorem createAlert_render {t i src : String} {dd : List (String × DVal)} {now : Int}
    {x : Alert} (h : createAlert t i src dd now = some x) :
    renderTemplate (ruleMessage x.alert_type) x.details = some x.message := by
  unfold createAlert at h
  cases hr : renderTemplate (ruleMessage t) dd with
  | none => rw [hr] at h; cases h
  | some m =>
    rw [hr] at h
    injection h with h'
    subst h'
    exact hr

theorem rogueAlertOf_some (ap : AP) (now : Int) : ∃ al, rogueAlertOf ap now = some al := by
  obtain ⟨m, hm⟩ := render_rogue ap.ssid ap.bssid
  exact ⟨_, createAlert_of_render hm⟩

theorem weakAlertOf_some (ap : AP) (now : Int) : ∃ al, weakAlertOf ap now = some al := by
  obtain ⟨m, hm⟩ := render_weak ap.ssid ap.bssid (upperString ap.encryption)
  exact ⟨_, createAlert_of_render hm⟩

theorem spoofAlertOf_some (oui : String) (macs : List String) (now : Int) :
    ∃ al, spoofAlertOf oui macs now = some al := by
  obtain ⟨m, hm⟩ := render_spoof oui macs
  exact ⟨_, createAlert_of_render hm⟩

/-! ### The analysis never fails -/

theorem apScan_some (now : Int) (aps : List AP) (seen : List (String × String)) :
    ∃ l, apScan now aps seen = some l := by
  induction aps generalizing seen with
  | nil => exact ⟨[], rfl⟩
  | cons ap rest ih =>
    by_cases hv : ap.ssid = "" ∨ ap.bssid = ""
    · simpa [apScan, hv] using ih seen
    · rw [apScan]
      simp only [hv, if_false]
      obtain ⟨t, ht⟩ := ih (seenStep seen ap)
      obtain ⟨al, hal⟩ := rogueAlertOf_some ap now
      obtain ⟨aw, haw⟩ := weakAlertOf_some ap now
      rcases Bool.dichotomy (rogueHit seen ap) with hr | hr
      · by_cases hw : upperString ap.encryption ∈ weakEncryptionTypes
        · exact ⟨aw :: t, by simp [hr, hw, haw, ht]⟩
        · exact ⟨t, by simp [hr, hw, ht]⟩
      · by_cases hw : upperString ap.encryption ∈ weakEncryptionTypes
        · exact ⟨al :: aw :: t, by simp [hr, hw, hal, haw, ht]⟩
        · exact ⟨al :: t, by simp [hr, hw, hal, ht]⟩

theorem spoofCands_some (now : Int) (groups : List (String × List String)) :
    ∃ l, spoofCands now groups = some l := by
  induction groups with
  | nil => exact ⟨[], rfl⟩
  | cons p rest ih =>
    obtain ⟨oui, macs⟩ := p
    obtain ⟨t, ht⟩ := ih
    by_cases hc : sameVendorMacs ≤ macs.length
    · obtain ⟨al, hal⟩ := spoofAlertOf_some oui macs now
      exact ⟨al :: t, by simp [spoofCands, hc, hal, ht]⟩
    · exact ⟨t, by simp [spoofCands, hc, ht]⟩

theorem detectCands_some (devices : List Device) (aps : List AP) (now : Int) :
    ∃ l, detectCands devices aps now = some l := by
  obtain ⟨l1, h1⟩ := apScan_some now aps []
  obtain ⟨l2, h2⟩ := spoofCands_some now (ouiGroups devices)
  exact ⟨l1 ++ l2, by simp [detectCands, h1, h2]⟩

theorem analyzeDevices_isSome (st : AlertSystem) (devices : List Device) (aps : List AP)
    (now : Int) : (analyzeDevices st devices aps now).isSome := by
  obtain ⟨l, hl⟩ := detectCands_some devices aps now
  simp [analyzeDevices, hl]

/-! ### Destructuring one step of the access-point loop -/

theorem apScan_cons_valid (now : Int) (ap : AP) (rest : List AP)
    (seen : List (String × String)) (res : List Alert)
    (hv : ¬(ap.ssid = "" ∨ ap.bssid = ""))
    (h : apScan now (ap :: rest) seen = some res) :
    ∃ r w t, apScan now rest (seenStep seen ap) = some t ∧ res = r ++ w ++ t ∧
      ((rogueHit seen ap = true ∧ ∃ al, rogueAlertOf ap now = some al ∧ r = [al]) ∨
        (rogueHit seen ap = false ∧ r = [])) ∧
      ((upperString ap.encryption ∈ weakEncryptionTypes ∧
          ∃ aw, weakAlertOf ap now = some aw ∧ w = [aw]) ∨
        (upperString ap.encryption ∉ weakEncryptionTypes ∧ w = [])) := by
  simp only [apScan] at h
  rw [if_neg hv] at h
  obtain ⟨al, hal⟩ := rogueAlertOf_some ap now
  obtain ⟨aw, haw⟩ := weakAlertOf_some ap now
  obtain ⟨t, ht⟩ := apScan_some now rest (seenStep seen ap)
  rcases Bool.dichotomy (rogueHit seen ap) with hr | hr <;>
    by_cases hw : upperString ap.encryption ∈ weakEncryptionTypes
  · simp only [hr, hw, hal, haw, ht] at h
    simp at h
    subst h
    exact ⟨[], [aw], t, ht, by simp, Or.inr ⟨hr, rfl⟩, Or.inl ⟨hw, aw, haw, rfl⟩⟩
  · simp only [hr, hw, hal, haw, ht] at h
    simp [hw] at h
    subst h
    exact ⟨[], [], t, ht, by simp, Or.inr ⟨hr, rfl⟩, Or.inr ⟨hw, rfl⟩⟩
  · simp only [hr, hw, hal, haw, ht] at h
    simp at h
    subst h
    exact ⟨[al], [aw], t, ht, by simp, Or.inl ⟨hr, al, hal, rfl⟩, Or.inl ⟨hw, aw, haw, rfl⟩⟩
  · simp only [hr, hw, hal, haw, ht] at h
    simp [hw] at h
    subst h
    exact ⟨[al], [], t, ht, by simp, Or.inl ⟨hr, al, hal, rfl⟩, Or.inr ⟨hw, rfl⟩⟩

/-- Every alert the access-point loop emits is one of the two
constructors applied to some access point of the input. -/
theorem apScan_mem (now : Int) :
    ∀ (aps : List AP) (seen : List (String × String)) (res : List Alert),
      apScan now aps seen = some res → ∀ x ∈ res,
      ∃ ap ∈ aps, rogueAlertOf ap now = some x ∨ weakAlertOf ap now = some x := by
  intro aps
  induction aps with
  | nil =>
    intro seen res h x hx
    simp only [apScan, Option.some.injEq] at h
    subst h
    simp at hx
  | cons p rest ih =>
    intro seen res h x hx
    by_cases hpv : p.ssid = "" ∨ p.bssid = ""
    · simp only [apScan] at h
      rw [if_pos hpv] at h
      obtain ⟨ap, hap, hc⟩ := ih seen res h x hx
      exact ⟨ap, List.mem_cons_of_mem p hap, hc⟩
    · obtain ⟨r, w, t, ht, hres, hrog, hweak⟩ := apScan_cons_valid now p rest seen res hpv h
      subst hres
      rcases List.mem_append.mp hx with hx' | hxt
      · rcases List.mem_append.mp hx' with hxr | hxw
        · rcases hrog with ⟨-, al, hal, hreq⟩ | ⟨-, hreq⟩
          · subst hreq
            simp only [List.mem_singleton] at hxr
            subst hxr
            exact ⟨p, List.mem_cons_self p rest, Or.inl hal⟩
          · subst hreq; simp at hxr
        · rcases hweak with ⟨-, aw, haw, hweq⟩ | ⟨-, hweq⟩
          · subst hweq
            simp only [List.mem_singleton] at hxw
            subst hxw
            exact ⟨p, List.mem_cons_self p rest, Or.inr haw⟩
          · subst hweq; simp at hxw
      · obtain ⟨ap, hap, hc⟩ := ih (seenStep seen p) t ht x hxt
        exact ⟨ap, List.mem_cons_of_mem p hap, hc⟩

/-- Every alert the MAC-spoofing loop emits is the spoof constructor
applied to a group that crossed the threshold. -/
theorem spoofCands_mem (now : Int) :
    ∀ (groups : List (String × List String)) (res : List Alert),
      spoofCands now groups = some res → ∀ x ∈ res,
      ∃ oui macs, (oui, macs) ∈ groups ∧ sameVendorMacs ≤ macs.length ∧
        spoofAlertOf oui macs now = some x := by
  intro groups
  induction groups with
  | nil =>
    intro res h x hx
    simp only [spoofCands, Option.some.injEq] at h
    subst h
    simp at hx
  | cons p rest ih =>
    intro res h x hx
    obtain ⟨oui, macs⟩ := p
    obtain ⟨t, ht⟩ := spoofCands_some now rest
    by_cases hc : sameVendorMacs ≤ macs.length
    · obtain ⟨al, hal⟩ := spoofAlertOf_some oui macs now
      simp only [spoofCands, hc, if_true, hal, ht] at h
      simp at h
      subst h
      rcases List.mem_cons.mp hx with hx1 | hxt
      · subst hx1
        exact ⟨oui, macs, List.mem_cons_self _ _, hc, hal⟩
      · obtain ⟨oui2, macs2, hg, hc2, hs2⟩ := ih t ht x hxt
        exact ⟨oui2, macs2, List.mem_cons_of_mem _ hg, hc2, hs2⟩
    · simp only [spoofCands, hc, if_false] at h
      obtain ⟨oui2, macs2, hg, hc2, hs2⟩ := ih res h x hx
      exact ⟨oui2, macs2, List.mem_cons_of_mem _ hg, hc2, hs2⟩

/-- Completeness of the weak-encryption check: every well-formed access
point with weak encryption contributes its alert to the result. -/
theorem apScan_weak_mem (now : Int) :
    ∀ (aps : List AP) (seen : List (String × String)) (res : List Alert) (ap : AP),
      apScan now aps seen = some res → ap ∈ aps →
      ¬(ap.ssid = "" ∨ ap.bssid = "") → upperString ap.encryption ∈ weakEncryptionTypes →
      ∀ aw, weakAlertOf ap now = some aw → aw ∈ res := by
  intro aps
  induction aps with
  | nil => intro seen res ap h hap; simp at hap
  | cons p rest ih =>
    intro seen res ap h hap hv hw aw haw
    rcases List.mem_cons.mp hap with heq | hmem
    · subst heq
      obtain ⟨r, w, t, ht, hres, hrog, hweak⟩ := apScan_cons_valid now ap rest seen res hv h
      subst hres
      rcases hweak with ⟨-, aw2, haw2, hweq⟩ | ⟨hw2, -⟩
      · rw [haw] at haw2
        injection haw2 with haw3
        subst hweq
        subst haw3
        simp
      · exact absurd hw hw2
    · by_cases hpv : p.ssid = "" ∨ p.bssid = ""
      · simp only [apScan] at h
        rw [if_pos hpv] at h
        exact ih seen res ap h hmem hv hw aw haw
      · obtain ⟨r, w, t, ht, hres, -, -⟩ := apScan_cons_valid now p rest seen res hpv h
        subst hres
        have hmem2 := ih (seenStep seen p) t ap ht hmem hv hw aw haw
        simp [List.mem_append, hmem2]

/-! ### The first-seen SSID map is canonical -/

/-- The BSSID the rogue check compares against while scanning `pre` with
an inherited `seen` map: entries of `seen` take priority, then the first
well-formed access point of `pre` declaring the SSID. -/
def lookFB (seen : List (String × String)) (pre : List AP) (s : String) : Option String :=
  match lookupS seen s with
  | some b => some b
  | none => firstBssid pre s

theorem lookFB_nil_seen (pre : List AP) (s : String) :
    lookFB [] pre s = firstBssid pre s := rfl

theorem firstBssid_cons_invalid (p : AP) (pre : List AP) (s : String)
    (hp : p.ssid = "" ∨ p.bssid = "") : firstBssid (p :: pre) s = firstBssid pre s := by
  rcases hp with h | h <;> simp [firstBssid, h]

theorem lookFB_cons_invalid (seen : List (String × String)) (p : AP) (pre : List AP)
    (s : String) (hp : p.ssid = "" ∨ p.bssid = "") :
    lookFB seen (p :: pre) s = lookFB seen pre s := by
  unfold lookFB
  rw [firstBssid_cons_invalid p pre s hp]

/-- Processing a well-formed access point updates the inherited map in
exactly the way that shifts it from the scanned prefix into `seen`. -/
theorem lookFB_step (p : AP) (seen : List (String × String)) (pre : List AP) (s : String)
    (h1 : p.ssid ≠ "") (h2 : p.bssid ≠ "") :
    lookFB (seenStep seen p) pre s = lookFB seen (p :: pre) s := by
  cases hh : lookupS seen p.ssid with
  | none =>
    have hr : rogueHit seen p = false := by unfold rogueHit; rw [hh]
    have hseen : seenStep seen p = updateS seen p.ssid p.bssid := by
      unfold seenStep; rw [hr]; simp
    rw [hseen]
    by_cases hs : s = p.ssid
    · subst hs
      simp [lookFB, lookupS_updateS_self, hh, firstBssid, h1, h2]
    · have hs' : ¬ p.ssid = s := fun he => hs he.symm
      unfold lookFB
      rw [lookupS_updateS_ne seen p.ssid s p.bssid hs]
      cases hg : lookupS seen s with
      | some b => rfl
      | none => simp [firstBssid, hs']
  | some b0 =>
    by_cases hne : p.bssid = b0
    · have hr : rogueHit seen p = false := by unfold rogueHit; rw [hh]; simp [hne]
      have hseen : seenStep seen p = updateS seen p.ssid p.bssid := by
        unfold seenStep; rw [hr]; simp
      rw [hseen]
      by_cases hs : s = p.ssid
      · subst hs
        unfold lookFB
        rw [lookupS_updateS_self, hh, hne]
      · have hs' : ¬ p.ssid = s := fun he => hs he.symm
        unfold lookFB
        rw [lookupS_updateS_ne seen p.ssid s p.bssid hs]
        cases hg : lookupS seen s with
        | some b => rfl
        | none => simp [firstBssid, hs']
    · have hr : rogueHit seen p = true := by unfold rogueHit; rw [hh]; simp [hne]
      have hseen : seenStep seen p = seen := by unfold seenStep; rw [hr]; simp
      rw [hseen]
      by_cases hs : s = p.ssid
      · subst hs
        unfold lookFB
        rw [hh]
      · have hs' : ¬ p.ssid = s := fun he => hs he.symm
        unfold lookFB
        cases hg : lookupS seen s with
        | some b => rfl
        | none => simp [firstBssid, hs']

/-- Completeness of the rogue-AP check: an access point whose SSID was
first seen under a different BSSID contributes its rogue alert. -/
theorem apScan_rogue_mem (now : Int) :
    ∀ (pre : List AP) (ap : AP) (post : List AP) (seen : List (String × String))
      (res : List Alert) (b : String),
      apScan now (pre ++ ap :: post) seen = some res →
      ap.ssid ≠ "" → ap.bssid ≠ "" →
      lookFB seen pre ap.ssid = some b → b ≠ ap.bssid →
      ∀ al, rogueAlertOf ap now = some al → al ∈ res := by
  intro pre
  induction pre with
  | nil =>
    intro ap post seen res b h h1 h2 hb hne al hal
    have hv : ¬(ap.ssid = "" ∨ ap.bssid = "") := by simp [h1, h2]
    rw [List.nil_append] at h
    obtain ⟨r, w, t, ht, hres, hrog, -⟩ := apScan_cons_valid now ap post seen res hv h
    subst hres
    have hlook : lookupS seen ap.ssid = some b := by
      unfold lookFB at hb
      cases hg : lookupS seen ap.ssid with
      | none => rw [hg] at hb; simp [firstBssid] at hb
      | some b2 =>
        rw [hg] at hb
        simp at hb
        rw [hb]
    have hhit : rogueHit seen ap = true := by
      unfold rogueHit
      rw [hlook]
      simp [Ne.symm hne]
    rcases hrog with ⟨-, al2, hal2, hreq⟩ | ⟨hmiss, -⟩
    · rw [hal] at hal2
      injection hal2 with hal3
      subst hreq
      subst hal3
      simp
    · rw [hhit] at hmiss; cases hmiss
  | cons p pre' ih =>
    intro ap post seen res b h h1 h2 hb hne al hal
    by_cases hpv : p.ssid = "" ∨ p.bssid = ""
    · rw [List.cons_append] at h
      simp only [apScan] at h
      rw [if_pos hpv] at h
      rw [lookFB_cons_invalid seen p pre' ap.ssid hpv] at hb
      exact ih ap post seen res b h h1 h2 hb hne al hal
    · rw [List.cons_append] at h
      obtain ⟨r, w, t, ht, hres, -, -⟩ := apScan_cons_valid now p (pre' ++ ap :: post) seen res hpv h
      subst hres
      push_neg at hpv
      rw [← lookFB_step p seen pre' ap.ssid hpv.1 hpv.2] at hb
      have := ih ap post (seenStep seen p) t b ht h1 h2 hb hne al hal
      simp [List.mem_append, this]

/-! ### Field projections of the three candidate constructors -/

theorem rogueAlertOf_fields {ap : AP} {now : Int} {al : Alert}
    (h : rogueAlertOf ap now = some al) :
    al.alert_id = "rogue_ap_" ++ ap.bssid ∧ al.alert_type = "rogue_ap" ∧
    al.timestamp = now ∧ al.source = ap.bssid ∧
    al.details = [("ssid", DVal.s ap.ssid), ("bssid", DVal.s ap.bssid)] ∧
    al.acknowledged = false := by
  unfold rogueAlertOf at h
  obtain ⟨h1, h2, -, h4, h5, h6, h7⟩ := createAlert_fields h
  exact ⟨h1, h2, h4, h5, h6, h7⟩

theorem weakAlertOf_fields {ap : AP} {now : Int} {al : Alert}
    (h : weakAlertOf ap now = some al) :
    al.alert_id = "weak_enc_" ++ ap.bssid ∧ al.alert_type = "weak_encryption" ∧
    al.timestamp = now ∧ al.source = ap.bssid ∧
    al.details = [("ssid", DVal.s ap.ssid), ("bssid", DVal.s ap.bssid),
                  ("encryption", DVal.s (upperString ap.encryption))] ∧
    al.acknowledged = false := by
  unfold weakAlertOf at h
  obtain ⟨h1, h2, -, h4, h5, h6, h7⟩ := createAlert_fields h
  exact ⟨h1, h2, h4, h5, h6, h7⟩

theorem spoofAlertOf_fields {oui : String} {macs : List String} {now : Int} {al : Alert}
    (h : spoofAlertOf oui macs now = some al) :
    al.alert_id = "mac_spoofing_" ++ oui ∧ al.alert_type = "mac_spoofing" ∧
    al.timestamp = now ∧ al.source = oui ∧ al.details = spoofDetails oui macs ∧
    al.acknowledged = false := by
  unfold spoofAlertOf at h
  obtain ⟨h1, h2, -, h4, h5, h6, h7⟩ := createAlert_fields h
  exact ⟨h1, h2, h4, h5, h6, h7⟩

/-! ### The OUI grouping -/

theorem insertNew_nodup (l : List String) (x : String) (h : l.Nodup) :
    (insertNew l x).Nodup := by
  unfold insertNew
  by_cases hx : x ∈ l
  · simp [hx, h]
  · simp [hx, List.nodup_append, h]

theorem addToGroup_fst (g : List (String × List String)) (oui mac : String) :
    (addToGroup g oui mac).map Prod.fst =
      if oui ∈ g.map Prod.fst then g.map Prod.fst else g.map Prod.fst ++ [oui] := by
  induction g with
  | nil => simp [addToGroup]
  | cons p rest ih =>
    obtain ⟨k, ms⟩ := p
    by_cases hk : k = oui
    · subst hk
      simp [addToGroup]
    · have hk' : ¬ oui = k := fun he => hk he.symm
      by_cases hm : oui ∈ rest.map Prod.fst
      · simp [addToGroup, hk, ih, hm, hk']
      · simp [addToGroup, hk, ih, hm, hk']

theorem ouiGroups_keys_nodup (devices : List Device) :
    ((ouiGroups devices).map Prod.fst).Nodup := by
  unfold ouiGroups
  suffices h : ∀ acc : List (String × List String), (acc.map Prod.fst).Nodup →
      ((devices.foldl deviceStep acc).map Prod.fst).Nodup by
    exact h [] (by simp)
  induction devices with
  | nil => intro acc h; simpa using h
  | cons d ds ih =>
    intro acc h
    rw [List.foldl_cons]
    apply ih
    unfold deviceStep
    by_cases hc : upperString d.mac = "" ∨ ¬ (':' ∈ (upperString d.mac).data)
    · simpa [hc] using h
    · rw [if_neg hc, addToGroup_fst]
      by_cases hm : ouiOf (upperString d.mac) ∈ acc.map Prod.fst
      · simpa [hm] using h
      · simp [hm, List.nodup_append, h]

theorem addToGroup_vals (g : List (String × List String)) (oui mac : String)
    (h : ∀ p ∈ g, (Prod.snd p).Nodup) :
    ∀ p ∈ addToGroup g oui mac, (Prod.snd p).Nodup := by
  induction g with
  | nil =>
    intro p hp
    simp [addToGroup] at hp
    simp [hp]
  | cons q rest ih =>
    obtain ⟨k, ms⟩ := q
    intro p hp
    by_cases hk : k = oui
    · subst hk
      simp only [addToGroup, if_pos rfl] at hp
      rcases List.mem_cons.mp hp with hp1 | hp2
      · subst hp1
        exact insertNew_nodup ms mac (h (k, ms) (by simp))
      · exact h p (List.mem_cons_of_mem _ hp2)
    · simp only [addToGroup, if_neg hk] at hp
      rcases List.mem_cons.mp hp with hp1 | hp2
      · subst hp1
        exact h (k, ms) (by simp)
      · exact ih (fun q hq => h q (List.mem_cons_of_mem _ hq)) p hp2

theorem ouiGroups_vals_nodup (devices : List Device) :
    ∀ p ∈ ouiGroups devices, (Prod.snd p).Nodup := by
  unfold ouiGroups
  suffices h : ∀ acc : List (String × List String), (∀ p ∈ acc, (Prod.snd p).Nodup) →
      ∀ p ∈ devices.foldl deviceStep acc, (Prod.snd p).Nodup by
    exact h [] (by simp)
  induction devices with
  | nil => intro acc h; simpa using h
  | cons d ds ih =>
    intro acc h
    rw [List.foldl_cons]
    apply ih
    unfold deviceStep
    by_cases hc : upperString d.mac = "" ∨ ¬ (':' ∈ (upperString d.mac).data)
    · simpa [hc] using h
    · rw [if_neg hc]
      exact addToGroup_vals acc _ _ h

/-! ### Counting MAC-spoofing alerts -/

theorem string_append_cancel {s x y : String} (h : s ++ x = s ++ y) : x = y := by
  have hd := congrArg String.data h
  simp only [String.data_append] at hd
  exact String.ext ((List.append_right_inj s.data).mp hd)

/-- The alert the MAC-spoofing check would raise for a given OUI. -/
def spoofPred (oui : String) (a : Alert) : Bool :=
  decide (a.alert_type = "mac_spoofing" ∧ a.alert_id = "mac_spoofing_" ++ oui)

theorem spoofCands_count_zero (now : Int) :
    ∀ (groups : List (String × List String)) (res : List Alert) (oui : String),
      spoofCands now groups = some res → oui ∉ groups.map Prod.fst →
      res.countP (spoofPred oui) = 0 := by
  intro groups
  induction groups with
  | nil =>
    intro res oui h hm
    simp only [spoofCands, Option.some.injEq] at h
    subst h
    rfl
  | cons p rest ih =>
    intro res oui h hm
    obtain ⟨k, ms⟩ := p
    simp only [List.map_cons, List.mem_cons, not_or] at hm
    obtain ⟨hk, hm'⟩ := hm
    obtain ⟨t, ht⟩ := spoofCands_some now rest
    by_cases hc : sameVendorMacs ≤ ms.length
    · obtain ⟨al, hal⟩ := spoofAlertOf_some k ms now
      simp only [spoofCands, hc, if_true, hal, ht] at h
      simp at h
      subst h
      obtain ⟨hid, hty, -⟩ := spoofAlertOf_fields hal
      have hpred : spoofPred oui al = false := by
        simp only [spoofPred, hid, hty]
        simp
        exact fun he => hk (string_append_cancel he).symm
      simp [List.countP_cons, hpred, ih t oui ht hm']
    · simp only [spoofCands, hc, if_false] at h
      exact ih res oui h hm'

theorem spoofCands_count_one (now : Int) :
    ∀ (groups : List (String × List String)) (res : List Alert) (oui : String)
      (macs : List String),
      (groups.map Prod.fst).Nodup → spoofCands now groups = some res →
      (oui, macs) ∈ groups →
      res.countP (spoofPred oui) = (if sameVendorMacs ≤ macs.length then 1 else 0) := by
  intro groups
  induction groups with
  | nil => intro res oui macs hnd h hg; simp at hg
  | cons p rest ih =>
    intro res oui macs hnd h hg
    obtain ⟨k, ms⟩ := p
    simp only [List.map_cons, List.nodup_cons] at hnd
    obtain ⟨hknr, hnd'⟩ := hnd
    obtain ⟨t, ht⟩ := spoofCands_some now rest
    rcases List.mem_cons.mp hg with hg1 | hg2
    · injection hg1 with hg1a hg1b
      subst hg1a
      subst hg1b
      by_cases hc : sameVendorMacs ≤ macs.length
      · obtain ⟨al, hal⟩ := spoofAlertOf_some oui macs now
        simp only [spoofCands, hc, if_true, hal, ht] at h
        simp at h
        subst h
        obtain ⟨hid, hty, -⟩ := spoofAlertOf_fields hal
        have hpred : spoofPred oui al = true := by
          simp [spoofPred, hid, hty]
        simp [List.countP_cons, hpred, hc,
          spoofCands_count_zero now rest t oui ht hknr]
      · simp only [spoofCands, hc, if_false] at h
        rw [if_neg hc]
        exact spoofCands_count_zero now rest res oui h hknr
    · have hko : k ≠ oui := by
        intro he
        subst he
        exact hknr (List.mem_map_of_mem Prod.fst hg2)
      by_cases hc : sameVendorMacs ≤ ms.length
      · obtain ⟨al, hal⟩ := spoofAlertOf_some k ms now
        simp only [spoofCands, hc, if_true, hal, ht] at h
        simp at h
        subst h
        obtain ⟨hid, hty, -⟩ := spoofAlertOf_fields hal
        have hpred : spoofPred oui al = false := by
          simp only [spoofPred, hid, hty]
          simp
          exact fun he => hko (string_append_cancel he)
        simp [List.countP_cons, hpred, ih t oui macs hnd' ht hg2]
      · simp only [spoofCands, hc, if_false] at h
        exact ih res oui macs hnd' h hg2

theorem spoofCands_complete (now : Int) :
    ∀ (groups : List (String × List String)) (res : List Alert) (oui : String)
      (macs : List String),
      spoofCands now groups = some res → (oui, macs) ∈ groups →
      sameVendorMacs ≤ macs.length →
      ∀ al, spoofAlertOf oui macs now = some al → al ∈ res := by
  intro groups
  induction groups with
  | nil => intro res oui macs h hg; simp at hg
  | cons p rest ih =>
    intro res oui macs h hg hc al hal
    obtain ⟨k, ms⟩ := p
    obtain ⟨t, ht⟩ := spoofCands_some now rest
    rcases List.mem_cons.mp hg with hg1 | hg2
    · injection hg1 with hg1a hg1b
      subst hg1a
      subst hg1b
      simp only [spoofCands, hc, if_true, hal, ht] at h
      simp at h
      subst h
      simp
    · by_cases hc2 : sameVendorMacs ≤ ms.length
      · obtain ⟨al2, hal2⟩ := spoofAlertOf_some k ms now
        simp only [spoofCands, hc2, if_true, hal2, ht] at h
        simp at h
        subst h
        exact List.mem_cons_of_mem _ (ih t oui macs ht hg2 hc al hal)
      · simp only [spoofCands, hc2, if_false] at h
        exact ih res oui macs h hg2 hc al hal

theorem apScan_count_zero (now : Int) (aps : List AP) (seen : List (String × String))
    (res : List Alert) (oui : String) (h : apScan now aps seen = some res) :
    res.countP (spoofPred oui) = 0 := by
  rw [List.countP_eq_zero]
  intro a ha
  obtain ⟨ap, -, hc⟩ := apScan_mem now aps seen res h a ha
  rcases hc with hc | hc
  · obtain ⟨-, hty, -⟩ := rogueAlertOf_fields hc
    simp [spoofPred, hty]
  · obtain ⟨-, hty, -⟩ := weakAlertOf_fields hc
    simp [spoofPred, hty]

/-! ### Store lemmas -/

theorem set_getElem_self {α : Type} (l : List α) (i : Nat) (v : α) (h : l[i]? = some v) :
    l.set i v = l := by
  induction l generalizing i with
  | nil => simp at h
  | cons x xs ih =>
    cases i with
    | zero =>
      simp at h
      simp [List.set, h]
    | succ n =>
      simp at h
      simp [List.set, ih n h]

theorem addAlert_hit {st : AlertSystem} {a : Alert}
    (h : (lookupS st.active_alerts a.alert_id).isSome) : addAlert st a = st := by
  simp [addAlert, h]

theorem addAlert_miss {st : AlertSystem} {a : Alert}
    (h : ¬ (lookupS st.active_alerts a.alert_id).isSome) :
    addAlert st a =
      { st with
        heap := st.heap ++ [a],
        active_alerts := st.active_alerts ++ [(a.alert_id, st.heap.length)],
        alert_history := st.alert_history ++ [st.heap.length] } := by
  simp [addAlert, h]

theorem acknowledgeAlert_none {st : AlertSystem} {id : String}
    (h : lookupS st.active_alerts id = none) :
    acknowledgeAlert st id = (AckResult.notFound, st) := by
  unfold acknowledgeAlert
  simp only [h]

theorem acknowledgeAlert_miss {st : AlertSystem} {id : String} {idx : Nat}
    (h : lookupS st.active_alerts id = some idx) (ha : st.heap[idx]? = none) :
    acknowledgeAlert st id = (AckResult.notFound, st) := by
  unfold acknowledgeAlert
  simp only [h, ha]

theorem acknowledgeAlert_hit {st : AlertSystem} {id : String} {idx : Nat} {a : Alert}
    (h : lookupS st.active_alerts id = some idx) (ha : st.heap[idx]? = some a) :
    acknowledgeAlert st id =
      (AckResult.ok { a with acknowledged := true },
       { st with
         heap := st.heap.set idx { a with acknowledged := true },
         acknowledged_alerts :=
           if id ∈ st.acknowledged_alerts then st.acknowledged_alerts
           else st.acknowledged_alerts ++ [id] }) := by
  unfold acknowledgeAlert
  simp only [h, ha]

theorem addAlert_histWF (st : AlertSystem) (a : Alert) (h : histWF st) :
    histWF (addAlert st a) := by
  by_cases hc : (lookupS st.active_alerts a.alert_id).isSome
  · rw [addAlert_hit hc]
    exact h
  · rw [addAlert_miss hc]
    intro i hi
    simp only [List.mem_append, List.mem_singleton] at hi
    simp only [List.length_append, List.length_singleton]
    rcases hi with hi | hi
    · exact Nat.lt_succ_of_lt (h i hi)
    · subst hi
      exact Nat.lt_succ_self _

theorem historyIds_addAlert (st : AlertSystem) (a : Alert) (h : histWF st) :
    ∃ t, historyIds (addAlert st a) = historyIds st ++ t := by
  by_cases hc : (lookupS st.active_alerts a.alert_id).isSome
  · exact ⟨[], by rw [addAlert_hit hc]; simp⟩
  · refine ⟨[a.alert_id], ?_⟩
    rw [addAlert_miss hc]
    unfold historyIds
    rw [List.map_append]
    congr 1
    · apply List.map_congr_left
      intro i hi
      rw [List.getElem?_append_left (h i hi)]
    · simp [List.getElem?_concat_length]

theorem historyIds_foldl_addAlert (cands : List Alert) (st : AlertSystem) (h : histWF st) :
    histWF (cands.foldl addAlert st) ∧
    ∃ t, historyIds (cands.foldl addAlert st) = historyIds st ++ t := by
  induction cands generalizing st with
  | nil => exact ⟨h, [], by simp⟩
  | cons c cs ih =>
    have h1 := addAlert_histWF st c h
    obtain ⟨hwf, t2, ht2⟩ := ih (addAlert st c) h1
    obtain ⟨t1, ht1⟩ := historyIds_addAlert st c h
    exact ⟨hwf, t1 ++ t2, by simp [List.foldl_cons, ht2, ht1]⟩

theorem historyIds_cleanup (st : AlertSystem) (now : Int) :
    historyIds (cleanupOldAlerts st now) = historyIds st := rfl

theorem historyIds_acknowledge (st : AlertSystem) (id : String) :
    historyIds (acknowledgeAlert st id).2 = historyIds st := by
  cases hidx : lookupS st.active_alerts id with
  | none => rw [acknowledgeAlert_none hidx]
  | some idx =>
    cases ha : st.heap[idx]? with
    | none => rw [acknowledgeAlert_miss hidx ha]
    | some a =>
      rw [acknowledgeAlert_hit hidx ha]
      unfold historyIds
      apply List.map_congr_left
      intro i hi
      by_cases hii : i = idx
      · subst hii
        have hlt : i < st.heap.length := by
          rcases List.getElem?_eq_some_iff.mp ha with ⟨hlt, -⟩
          exact hlt
        rw [List.getElem?_set_self hlt, ha]
        rfl
      · rw [List.getElem?_set_ne (fun he => hii he.symm)]

/-! ### Concrete scenarios used by the claims -/

def c1ap : AP := ⟨"Cafe", "AA:BB:CC:DD:EE:01", "WEP"⟩

def wid : String := "weak_enc_AA:BB:CC:DD:EE:01"

def c1alert : Alert :=
  ⟨"weak_enc_AA:BB:CC:DD:EE:01", "weak_encryption", "medium",
   "Weak encryption detected: Cafe uses WEP", 0, "AA:BB:CC:DD:EE:01",
   [("ssid", DVal.s "Cafe"), ("bssid", DVal.s "AA:BB:CC:DD:EE:01"),
    ("encryption", DVal.s "WEP")], false⟩

def c1st1 : AlertSystem := ⟨[c1alert], [("weak_enc_AA:BB:CC:DD:EE:01", 0)], [0], []⟩

def spoofDevices : List Device :=
  [⟨"00:1a:2b:00:00:01"⟩, ⟨"00:1A:2B:00:00:02"⟩, ⟨"00:1A:2B:00:00:03"⟩]

def macs3 : List String :=
  ["00:1A:2B:00:00:01", "00:1A:2B:00:00:02", "00:1A:2B:00:00:03"]

def spoofAlert1 : Alert :=
  ⟨"mac_spoofing_00:1A:2B", "mac_spoofing", "high",
   "Possible MAC address spoofing detected for vendor Cisco", 0, "00:1A:2B",
   [("vendor", DVal.s "Cisco"), ("oui", DVal.s "00:1A:2B"),
    ("device_count", DVal.n 3), ("mac_addresses", DVal.ls macs3)], false⟩

def spoofSt1 : AlertSystem := ⟨[spoofAlert1], [("mac_spoofing_00:1A:2B", 0)], [0], []⟩

/-- `spoofSt1` after its only alert expired from the active set. -/
def expiredSt : AlertSystem := ⟨[spoofAlert1], [], [0], []⟩

def cafeAP1 : AP := ⟨"Cafe", "AA:AA:AA:AA:AA:01", ""⟩

def cafeAP2 : AP := ⟨"Cafe", "AA:AA:AA:AA:AA:02", ""⟩

def cafeAPs : List AP := [cafeAP1, cafeAP2]

def cafeRogue : Alert :=
  ⟨"rogue_ap_AA:AA:AA:AA:AA:02", "rogue_ap", "high",
   "Rogue access point detected: Cafe (AA:AA:AA:AA:AA:02)", 0, "AA:AA:AA:AA:AA:02",
   [("ssid", DVal.s "Cafe"), ("bssid", DVal.s "AA:AA:AA:AA:AA:02")], false⟩

def cafeWAP2 : AP := ⟨"Cafe", "AA:AA:AA:AA:AA:02", "WEP"⟩

def cafeWeakAPs : List AP := [cafeAP1, cafeWAP2]

def cafeWeak : Alert :=
  ⟨"weak_enc_AA:AA:AA:AA:AA:02", "weak_encryption", "medium",
   "Weak encryption detected: Cafe uses WEP", 0, "AA:AA:AA:AA:AA:02",
   [("ssid", DVal.s "Cafe"), ("bssid", DVal.s "AA:AA:AA:AA:AA:02"),
    ("encryption", DVal.s "WEP")], false⟩

def badAP : AP := ⟨"", "AA:AA:AA:AA:AA:09", "WEP"⟩

def badDev : Device := ⟨"nomac"⟩

/-! ### Claim C1 -/

/-- C1 counterexample: with one WEP access point and no elapsed time, the
second identical `analyze` call returns the same one-element candidate
list again — not the empty list the claim requires. Candidates already
active are only excluded from the store, never from the returned list. -/
theorem C1_second_analyze_nonempty_cex :
    (analyzeDevices emptySystem [] [c1ap] 0).bind
        (fun p1 => Option.map Prod.fst (analyzeDevices p1.2 [] [c1ap] 0)) = some [c1alert] ∧
    some [c1alert] ≠ some ([] : List Alert) := by
  constructor
  · decide
  · decide

/-- C1 (amended): calling `analyze` twice with identical snapshots and no
elapsed time yields the same returned list on the second call, not an
empty one: the returned list is the full candidate list, a pure function
of the snapshot, and deduplication by `alertId` affects only the active
set and the history. -/
theorem C1_second_analyze_same_list (st st1 st2 : AlertSystem) (d : List Device)
    (aps : List AP) (now : Int) (c1 c2 : List Alert)
    (hc1 : analyzeDevices st d aps now = some (c1, st1))
    (hc2 : analyzeDevices st1 d aps now = some (c2, st2)) : c2 = c1 := by
  unfold analyzeDevices at hc1 hc2
  cases h : detectCands d aps now with
  | none => rw [h] at hc1; cases hc1
  | some cands =>
    rw [h] at hc1 hc2
    injection hc1 with hc1'
    injection hc2 with hc2'
    injection hc1' with hc1a hc1b
    injection hc2' with hc2a hc2b
    rw [← hc1a, ← hc2a]

/-- C1 amended witness at the concrete scenario. -/
theorem C1_second_analyze_same_list_witness : ([c1alert] : List Alert) = [c1alert] :=
  C1_second_analyze_same_list emptySystem c1st1 c1st1 [] [c1ap] 0 [c1alert] [c1alert]
    (by decide) (by decide)

/-! ### Claim C7 -/

/-- C7: admitting a candidate whose `alertId` is already active mutates
nothing: the store (heap of alert objects, active set, history,
acknowledged set) is exactly what it was, so the stored alert keeps its
`createdAt`, `message`, `details` and `acknowledged` values and no
duplicate history entry appears. -/
theorem C7_readmission_is_noop (st : AlertSystem) (a : Alert)
    (h : (lookupS st.active_alerts a.alert_id).isSome) :
    addAlert st a = st ∧
    (addAlert st a).heap = st.heap ∧
    (addAlert st a).alert_history = st.alert_history ∧
    (addAlert st a).active_alerts = st.active_alerts ∧
    (addAlert st a).acknowledged_alerts = st.acknowledged_alerts := by
  have he := addAlert_hit h
  exact ⟨he, by rw [he], by rw [he], by rw [he], by rw [he]⟩

/-- C7 witness: re-admitting the stored weak-encryption alert. -/
theorem C7_readmission_is_noop_witness :
    addAlert c1st1 c1alert = c1st1 ∧
    (addAlert c1st1 c1alert).heap = c1st1.heap ∧
    (addAlert c1st1 c1alert).alert_history = c1st1.alert_history ∧
    (addAlert c1st1 c1alert).active_alerts = c1st1.active_alerts ∧
    (addAlert c1st1 c1alert).acknowledged_alerts = c1st1.acknowledged_alerts :=
  C7_readmission_is_noop c1st1 c1alert (by decide)

/-! ### Claim C5 -/

/-- C5: after `expireStale` at `now`, an active entry survives exactly
when `now - createdAt` does not exceed its rule's `suppressAfterHours`;
history and the alert objects are untouched. Concretely, a `mac_spoofing`
alert (window 1 h) created 2 h before `now` is gone from the active
listing yet still in the history listing. -/
theorem C5_expiry_exact (st : AlertSystem) (now : Int) (p : String × Nat) (a : Alert)
    (ha : st.heap[p.2]? = some a) :
    (p ∈ (cleanupOldAlerts st now).active_alerts ↔
      p ∈ st.active_alerts ∧ now - a.timestamp ≤ suppressAfterHours a.alert_type * 3600) ∧
    (cleanupOldAlerts st now).alert_history = st.alert_history ∧
    (cleanupOldAlerts st now).heap = st.heap ∧
    listActive (cleanupOldAlerts spoofSt1 7200) = [] ∧
    listHistory (cleanupOldAlerts spoofSt1 7200) = [spoofAlert1] := by
  refine ⟨?_, rfl, rfl, by decide, by decide⟩
  have hk : keepAlert st.heap now p = true ↔
      now - a.timestamp ≤ suppressAfterHours a.alert_type * 3600 := by
    unfold keepAlert
    rw [ha]
    simp
  simp only [cleanupOldAlerts, List.mem_filter]
  rw [hk]

/-- C5 witness: the two-hour-old `mac_spoofing` alert. -/
theorem C5_expiry_exact_witness :
    ((("mac_spoofing_00:1A:2B", 0) : String × Nat) ∈
        (cleanupOldAlerts spoofSt1 7200).active_alerts ↔
      (("mac_spoofing_00:1A:2B", 0) : String × Nat) ∈ spoofSt1.active_alerts ∧
        (7200 : Int) - spoofAlert1.timestamp ≤
          suppressAfterHours spoofAlert1.alert_type * 3600) ∧
    (cleanupOldAlerts spoofSt1 7200).alert_history = spoofSt1.alert_history ∧
    (cleanupOldAlerts spoofSt1 7200).heap = spoofSt1.heap ∧
    listActive (cleanupOldAlerts spoofSt1 7200) = [] ∧
    listHistory (cleanupOldAlerts spoofSt1 7200) = [spoofAlert1] :=
  C5_expiry_exact spoofSt1 7200 ("mac_spoofing_00:1A:2B", 0) spoofAlert1 (by decide)

/-- Setting the `acknowledged` flag twice is the same as setting it once. -/
theorem ack_twice (a : Alert) :
    ({ ({ a with acknowledged := true } : Alert) with acknowledged := true } : Alert) =
      { a with acknowledged := true } := rfl

/-! ### Claim C6 -/

/-- C6: `acknowledge` looks the id up only in the active set; an absent
id (even one still in history because it expired) yields `NotFoundError`
with the state unchanged; an active id succeeds, sets `acknowledged`,
records the id in the acknowledged set, and a repeated acknowledge
returns the identical result with the state unchanged. -/
theorem C6_acknowledge_semantics (st : AlertSystem) (id : String) :
    (lookupS st.active_alerts id = none → acknowledgeAlert st id = (AckResult.notFound, st)) ∧
    (∀ idx a, lookupS st.active_alerts id = some idx → st.heap[idx]? = some a →
      (acknowledgeAlert st id).1 = AckResult.ok { a with acknowledged := true } ∧
      (acknowledgeAlert st id).2.heap[idx]? = some { a with acknowledged := true } ∧
      id ∈ (acknowledgeAlert st id).2.acknowledged_alerts ∧
      acknowledgeAlert (acknowledgeAlert st id).2 id = acknowledgeAlert st id) ∧
    (lookupS expiredSt.active_alerts "mac_spoofing_00:1A:2B" = none ∧
     "mac_spoofing_00:1A:2B" ∈ historyIds expiredSt ∧
     acknowledgeAlert expiredSt "mac_spoofing_00:1A:2B" = (AckResult.notFound, expiredSt)) := by
  refine ⟨fun h => acknowledgeAlert_none h, ?_, by decide, by decide, by decide⟩
  intro idx a hidx ha
  obtain ⟨hlt, -⟩ := List.getElem?_eq_some_iff.mp ha
  have hset : (st.heap.set idx { a with acknowledged := true })[idx]? =
      some { a with acknowledged := true } := List.getElem?_set_self hlt
  have hidL : id ∈ (if id ∈ st.acknowledged_alerts then st.acknowledged_alerts
      else st.acknowledged_alerts ++ [id]) := by
    by_cases hm : id ∈ st.acknowledged_alerts <;> simp [hm]
  refine ⟨?_, ?_, ?_, ?_⟩
  · rw [acknowledgeAlert_hit hidx ha]
  · rw [acknowledgeAlert_hit hidx ha]
    exact hset
  · rw [acknowledgeAlert_hit hidx ha]
    exact hidL
  · rw [acknowledgeAlert_hit hidx ha]
    show acknowledgeAlert { st with
        heap := st.heap.set idx { a with acknowledged := true },
        acknowledged_alerts := if id ∈ st.acknowledged_alerts then st.acknowledged_alerts
          else st.acknowledged_alerts ++ [id] } id =
      (AckResult.ok { a with acknowledged := true },
       { st with
         heap := st.heap.set idx { a with acknowledged := true },
         acknowledged_alerts := if id ∈ st.acknowledged_alerts then st.acknowledged_alerts
           else st.acknowledged_alerts ++ [id] })
    have hidx2 : lookupS ({ st with
        heap := st.heap.set idx { a with acknowledged := true },
        acknowledged_alerts := if id ∈ st.acknowledged_alerts then st.acknowledged_alerts
          else st.acknowledged_alerts ++ [id] } : AlertSystem).active_alerts id =
        some idx := hidx
    have hset2 : ({ st with
        heap := st.heap.set idx { a with acknowledged := true },
        acknowledged_alerts := if id ∈ st.acknowledged_alerts then st.acknowledged_alerts
          else st.acknowledged_alerts ++ [id] } : AlertSystem).heap[idx]? =
        some { a with acknowledged := true } := hset
    have hidL2 : id ∈ ({ st with
        heap := st.heap.set idx { a with acknowledged := true },
        acknowledged_alerts := if id ∈ st.acknowledged_alerts then st.acknowledged_alerts
          else st.acknowledged_alerts ++ [id] } : AlertSystem).acknowledged_alerts := hidL
    rw [acknowledgeAlert_hit hidx2 hset2]
    rw [ack_twice]
    rw [set_getElem_self _ idx _ hset2, if_pos hidL2]

/-- C6 witness: acknowledging the active weak-encryption alert, and the
expired alert present only in history. -/
theorem C6_acknowledge_semantics_witness :
    ((acknowledgeAlert c1st1 wid).1 = AckResult.ok { c1alert with acknowledged := true } ∧
     (acknowledgeAlert c1st1 wid).2.heap[0]? = some { c1alert with acknowledged := true } ∧
     wid ∈ (acknowledgeAlert c1st1 wid).2.acknowledged_alerts ∧
     acknowledgeAlert (acknowledgeAlert c1st1 wid).2 wid = acknowledgeAlert c1st1 wid) ∧
    acknowledgeAlert expiredSt "mac_spoofing_00:1A:2B" = (AckResult.notFound, expiredSt) :=
  ⟨(C6_acknowledge_semantics c1st1 wid).2.1 0 c1alert (by decide) (by decide),
   (C6_acknowledge_semantics expiredSt "mac_spoofing_00:1A:2B").1 (by decide)⟩

/-! ### Claim C10 -/

/-- C10: a successful acknowledge keeps the alert in the active set
(so its id keeps suppressing re-detection), leaves the active map,
history and every other heap slot unchanged, and changes the stored
object only by setting its `acknowledged` flag. -/
theorem C10_acknowledge_frame (st : AlertSystem) (id : String) (idx : Nat) (a : Alert)
    (hidx : lookupS st.active_alerts id = some idx) (ha : st.heap[idx]? = some a) :
    (acknowledgeAlert st id).2.active_alerts = st.active_alerts ∧
    (acknowledgeAlert st id).2.alert_history = st.alert_history ∧
    (acknowledgeAlert st id).2.heap[idx]? = some { a with acknowledged := true } ∧
    (∀ j, j ≠ idx → (acknowledgeAlert st id).2.heap[j]? = st.heap[j]?) ∧
    (∀ b : Alert, b.alert_id = id →
      addAlert (acknowledgeAlert st id).2 b = (acknowledgeAlert st id).2) := by
  obtain ⟨hlt, -⟩ := List.getElem?_eq_some_iff.mp ha
  rw [acknowledgeAlert_hit hidx ha]
  refine ⟨rfl, rfl, List.getElem?_set_self hlt, ?_, ?_⟩
  · intro j hj
    exact List.getElem?_set_ne (fun he => hj he.symm)
  · intro b hb
    apply addAlert_hit
    simp only []
    rw [hb]
    rw [show lookupS st.active_alerts id = some idx from hidx]
    rfl

/-- C10 witness at the concrete acknowledged weak-encryption alert. -/
theorem C10_acknowledge_frame_witness :
    (acknowledgeAlert c1st1 wid).2.active_alerts = c1st1.active_alerts ∧
    (acknowledgeAlert c1st1 wid).2.alert_history = c1st1.alert_history ∧
    (acknowledgeAlert c1st1 wid).2.heap[0]? = some { c1alert with acknowledged := true } ∧
    (acknowledgeAlert c1st1 wid).2.heap[1]? = c1st1.heap[1]? ∧
    addAlert (acknowledgeAlert c1st1 wid).2 c1alert = (acknowledgeAlert c1st1 wid).2 :=
  ⟨(C10_acknowledge_frame c1st1 wid 0 c1alert (by decide) (by decide)).1,
   (C10_acknowledge_frame c1st1 wid 0 c1alert (by decide) (by decide)).2.1,
   (C10_acknowledge_frame c1st1 wid 0 c1alert (by decide) (by decide)).2.2.1,
   (C10_acknowledge_frame c1st1 wid 0 c1alert (by decide) (by decide)).2.2.2.1 1 (by decide),
   (C10_acknowledge_frame c1st1 wid 0 c1alert (by decide) (by decide)).2.2.2.2 c1alert
     (by decide)⟩

/-! ### Claim C8 -/

/-- C8: the history log is append-only. For every well-formed store, each
operation (admission, expiry, acknowledgment, a full analysis cycle)
leaves the previous sequence of history entries in place: the old history
ids are a prefix of the new ones, and expiry and acknowledgment leave the
id sequence entirely unchanged. -/
theorem C8_history_append_only (st : AlertSystem) (hwf : histWF st) :
    (∀ a, (historyIds (addAlert st a)).take (historyIds st).length = historyIds st) ∧
    (∀ now, historyIds (cleanupOldAlerts st now) = historyIds st) ∧
    (∀ id, historyIds (acknowledgeAlert st id).2 = historyIds st) ∧
    (∀ d aps now c st', analyzeDevices st d aps now = some (c, st') →
        (historyIds st').take (historyIds st).length = historyIds st) := by
  refine ⟨?_, fun now => historyIds_cleanup st now, fun id => historyIds_acknowledge st id, ?_⟩
  · intro a
    obtain ⟨t, ht⟩ := historyIds_addAlert st a hwf
    rw [ht, List.take_left]
  · intro d aps now c st' h
    unfold analyzeDevices at h
    cases hd : detectCands d aps now with
    | none => rw [hd] at h; cases h
    | some cands =>
      rw [hd] at h
      injection h with h'
      injection h' with hc hs
      subst hs
      obtain ⟨-, t, ht⟩ := historyIds_foldl_addAlert cands st hwf
      rw [historyIds_cleanup, ht, List.take_left]

/-- C8 witness: admission, expiry and acknowledgment on the concrete
one-alert store. -/
theorem C8_history_append_only_witness :
    (historyIds (addAlert spoofSt1 c1alert)).take (historyIds spoofSt1).length =
        historyIds spoofSt1 ∧
    historyIds (cleanupOldAlerts spoofSt1 7200) = historyIds spoofSt1 ∧
    historyIds (acknowledgeAlert spoofSt1 "mac_spoofing_00:1A:2B").2 = historyIds spoofSt1 :=
  ⟨(C8_history_append_only spoofSt1 (by unfold histWF; decide)).1 c1alert,
   (C8_history_append_only spoofSt1 (by unfold histWF; decide)).2.1 7200,
   (C8_history_append_only spoofSt1 (by unfold histWF; decide)).2.2.1 "mac_spoofing_00:1A:2B"⟩

/-! ### Claim C9 -/

theorem apScan_skip (now : Int) (bad : AP) (hbad : bad.ssid = "" ∨ bad.bssid = "") :
    ∀ (pre post : List AP) (seen : List (String × String)),
      apScan now (pre ++ bad :: post) seen = apScan now (pre ++ post) seen := by
  intro pre
  induction pre with
  | nil =>
    intro post seen
    rw [List.nil_append, List.nil_append]
    conv_lhs => rw [apScan]
    rw [if_pos hbad]
  | cons p pre' ih =>
    intro post seen
    rw [List.cons_append, List.cons_append]
    simp only [apScan]
    simp only [ih]

theorem ouiGroups_skip (bd : Device)
    (hbd : upperString bd.mac = "" ∨ ¬ (':' ∈ (upperString bd.mac).data))
    (dpre dpost : List Device) :
    ouiGroups (dpre ++ bd :: dpost) = ouiGroups (dpre ++ dpost) := by
  unfold ouiGroups
  rw [List.foldl_append, List.foldl_append, List.foldl_cons]
  have hstep : deviceStep (dpre.foldl deviceStep []) bd = dpre.foldl deviceStep [] := by
    unfold deviceStep
    rw [if_pos hbd]
  rw [hstep]

theorem detectCands_render (d : List Device) (aps : List AP) (now : Int) (res : List Alert)
    (h : detectCands d aps now = some res) :
    ∀ x ∈ res, renderTemplate (ruleMessage x.alert_type) x.details = some x.message := by
  unfold detectCands at h
  cases h1 : apScan now aps [] with
  | none => rw [h1] at h; cases h
  | some l1 =>
    cases h2 : spoofCands now (ouiGroups d) with
    | none => rw [h1, h2] at h; cases h
    | some l2 =>
      rw [h1, h2] at h
      injection h with h'
      subst h'
      intro x hx
      rcases List.mem_append.mp hx with hx | hx
      · obtain ⟨ap, -, hc⟩ := apScan_mem now aps [] l1 h1 x hx
        rcases hc with hc | hc
        · unfold rogueAlertOf at hc
          exact createAlert_render hc
        · unfold weakAlertOf at hc
          exact createAlert_render hc
      · obtain ⟨oui, macs, -, -, hs⟩ := spoofCands_mem now (ouiGroups d) l2 h2 x hx
        unfold spoofAlertOf at hs
        exact createAlert_render hs

/-- C9: one analysis cycle is total — it returns a value for every input
(no exception escapes); access points lacking an SSID or BSSID and device
identifiers without a separator are silently excluded from the candidate
computation; and every candidate the detector constructs renders its
rule's message template successfully (its details cover every referenced
placeholder). -/
theorem C9_analyze_total (st : AlertSystem) (d : List Device) (aps : List AP) (now : Int)
    (pre post : List AP) (bad : AP) (dpre dpost : List Device) (bd : Device)
    (res : List Alert) (x : Alert)
    (hbad : bad.ssid = "" ∨ bad.bssid = "")
    (hbd : upperString bd.mac = "" ∨ ¬ (':' ∈ (upperString bd.mac).data)) :
    (analyzeDevices st d aps now).isSome ∧
    detectCands d (pre ++ bad :: post) now = detectCands d (pre ++ post) now ∧
    detectCands (dpre ++ bd :: dpost) aps now = detectCands (dpre ++ dpost) aps now ∧
    (detectCands d aps now = some res → x ∈ res →
      renderTemplate (ruleMessage x.alert_type) x.details = some x.message) := by
  refine ⟨analyzeDevices_isSome st d aps now, ?_, ?_, fun h hx => detectCands_render d aps now res h x hx⟩
  · unfold detectCands
    rw [apScan_skip now bad hbad pre post []]
  · unfold detectCands
    rw [ouiGroups_skip bd hbd dpre dpost]

/-- C9 witness: the empty-SSID access point and the separator-free device
identifier are skipped, analysis of the weak-encryption scenario
succeeds, and its candidate renders its template. -/
theorem C9_analyze_total_witness :
    (analyzeDevices emptySystem [] [c1ap] 0).isSome ∧
    detectCands [] ([] ++ badAP :: []) 0 = detectCands [] ([] ++ []) 0 ∧
    detectCands ([] ++ badDev :: []) [c1ap] 0 = detectCands ([] ++ []) [c1ap] 0 ∧
    renderTemplate (ruleMessage c1alert.alert_type) c1alert.details = some c1alert.message := by
  have h := C9_analyze_total emptySystem [] [c1ap] 0 [] [] badAP [] [] badDev
    [c1alert] c1alert (by decide) (by decide)
  exact ⟨h.1, h.2.1, h.2.2.1, h.2.2.2 (by decide) (by decide)⟩

/-! ### Claim C2 -/

/-- C2: the first-seen BSSID per SSID is canonical. Whenever an access
point well-formed in both fields declares an SSID whose first well-formed
occurrence earlier in the input carried a different BSSID, the candidate
list contains the `rogue_ap` alert keyed by the later BSSID with details
`ssid`/`bssid`; and, concretely, the two-AP Cafe input raises exactly one
`rogue_ap` alert keyed on `AA:AA:AA:AA:AA:02`. -/
theorem C2_rogue_first_seen (devices : List Device) (pre post : List AP) (ap : AP)
    (now : Int) (res : List Alert) (b : String)
    (h : detectCands devices (pre ++ ap :: post) now = some res)
    (h1 : ap.ssid ≠ "") (h2 : ap.bssid ≠ "")
    (hb : firstBssid pre ap.ssid = some b) (hne : b ≠ ap.bssid) :
    (∀ al, rogueAlertOf ap now = some al →
      al ∈ res ∧ al.alert_id = "rogue_ap_" ++ ap.bssid ∧ al.alert_type = "rogue_ap" ∧
      al.details = [("ssid", DVal.s ap.ssid), ("bssid", DVal.s ap.bssid)]) ∧
    detectCands [] cafeAPs 0 = some [cafeRogue] := by
  refine ⟨?_, by decide⟩
  intro al hal
  unfold detectCands at h
  cases ha1 : apScan now (pre ++ ap :: post) [] with
  | none => rw [ha1] at h; cases h
  | some l1 =>
    cases ha2 : spoofCands now (ouiGroups devices) with
    | none => rw [ha1, ha2] at h; cases h
    | some l2 =>
      rw [ha1, ha2] at h
      injection h with h'
      subst h'
      have hb' : lookFB [] pre ap.ssid = some b := by
        rw [lookFB_nil_seen]
        exact hb
      have hmem := apScan_rogue_mem now pre ap post [] l1 b ha1 h1 h2 hb' hne al hal
      obtain ⟨hid, hty, -, -, hdet, -⟩ := rogueAlertOf_fields hal
      exact ⟨List.mem_append.mpr (Or.inl hmem), hid, hty, hdet⟩

/-- C2 witness at the two-AP Cafe scenario. -/
theorem C2_rogue_first_seen_witness :
    (cafeRogue ∈ ([cafeRogue] : List Alert) ∧
     cafeRogue.alert_id = "rogue_ap_" ++ cafeAP2.bssid ∧
     cafeRogue.alert_type = "rogue_ap" ∧
     cafeRogue.details = [("ssid", DVal.s cafeAP2.ssid), ("bssid", DVal.s cafeAP2.bssid)]) ∧
    detectCands [] cafeAPs 0 = some [cafeRogue] :=
  ⟨(C2_rogue_first_seen [] [cafeAP1] [] cafeAP2 0 [cafeRogue] "AA:AA:AA:AA:AA:01"
      (by decide) (by decide) (by decide) (by decide) (by decide)).1 cafeRogue (by decide),
   (C2_rogue_first_seen [] [cafeAP1] [] cafeAP2 0 [cafeRogue] "AA:AA:AA:AA:AA:01"
      (by decide) (by decide) (by decide) (by decide) (by decide)).2⟩

/-! ### Claim C3 -/

/-- C3: devices are grouped by the first three octet-groups of their
identifier; the member list of each group is duplicate-free; a group
below the 3-identifier threshold contributes no `mac_spoofing` alert,
while a group at or above it contributes exactly one, keyed by the OUI,
whose `device_count` detail is the number of distinct identifiers.
Concretely three devices sharing an OUI yield exactly one alert with
`device_count = 3`, and two devices yield none. -/
theorem C3_mac_spoofing_threshold (devices : List Device) (aps : List AP) (now : Int)
    (res : List Alert) (oui : String) (macs : List String)
    (h : detectCands devices aps now = some res)
    (hg : (oui, macs) ∈ ouiGroups devices) :
    macs.Nodup ∧
    res.countP (spoofPred oui) = (if sameVendorMacs ≤ macs.length then 1 else 0) ∧
    (∀ al, spoofAlertOf oui macs now = some al → sameVendorMacs ≤ macs.length →
      al ∈ res ∧ lookupS al.details "device_count" = some (DVal.n macs.length)) ∧
    analyzeDevices emptySystem spoofDevices [] 0 = some ([spoofAlert1], spoofSt1) ∧
    analyzeDevices emptySystem (spoofDevices.take 2) [] 0 = some ([], emptySystem) := by
  refine ⟨ouiGroups_vals_nodup devices (oui, macs) hg, ?_, ?_, by decide, by decide⟩
  all_goals
    unfold detectCands at h
    cases ha1 : apScan now aps [] with
    | none => rw [ha1] at h; cases h
    | some l1 =>
      cases ha2 : spoofCands now (ouiGroups devices) with
      | none => rw [ha1, ha2] at h; cases h
      | some l2 =>
        rw [ha1, ha2] at h
        injection h with h'
        subst h'
        first
        | · rw [List.countP_append,
              apScan_count_zero now aps [] l1 oui ha1,
              spoofCands_count_one now (ouiGroups devices) l2 oui macs
                (ouiGroups_keys_nodup devices) ha2 hg]
            simp
        | · intro al hal hth
            obtain ⟨-, -, -, -, hdet, -⟩ := spoofAlertOf_fields hal
            refine ⟨List.mem_append.mpr (Or.inr
              (spoofCands_complete now (ouiGroups devices) l2 oui macs ha2 hg hth al hal)), ?_⟩
            rw [hdet]
            simp [spoofDetails, lookupS]

/-- C3 witness at the three-device Cisco-OUI scenario. -/
theorem C3_mac_spoofing_threshold_witness :
    macs3.Nodup ∧
    ([spoofAlert1] : List Alert).countP (spoofPred "00:1A:2B") =
      (if sameVendorMacs ≤ macs3.length then 1 else 0) ∧
    (spoofAlert1 ∈ ([spoofAlert1] : List Alert) ∧
     lookupS spoofAlert1.details "device_count" = some (DVal.n macs3.length)) ∧
    analyzeDevices emptySystem spoofDevices [] 0 = some ([spoofAlert1], spoofSt1) ∧
    analyzeDevices emptySystem (spoofDevices.take 2) [] 0 = some ([], emptySystem) := by
  have h := C3_mac_spoofing_threshold spoofDevices [] 0 [spoofAlert1] "00:1A:2B" macs3
    (by decide) (by decide)
  exact ⟨h.1, h.2.1, h.2.2.1 spoofAlert1 (by decide) (by decide), h.2.2.2.1, h.2.2.2.2⟩

/-! ### Claim C4 -/

/-- C4: weak-encryption detection is membership-based and independent of
the rogue-AP check: every access point well-formed in both fields whose
upper-cased encryption lies in the weak set contributes a
`weak_encryption` alert keyed by its BSSID; concretely, a WEP access
point that also duplicates an earlier SSID under a different BSSID yields
both a `rogue_ap` and a `weak_encryption` alert in the same call. -/
theorem C4_weak_encryption_independent (devices : List Device) (aps : List AP) (now : Int)
    (res : List Alert) (ap : AP)
    (h : detectCands devices aps now = some res) (hap : ap ∈ aps)
    (h1 : ap.ssid ≠ "") (h2 : ap.bssid ≠ "")
    (hw : upperString ap.encryption ∈ weakEncryptionTypes) :
    (∀ aw, weakAlertOf ap now = some aw →
      aw ∈ res ∧ aw.alert_id = "weak_enc_" ++ ap.bssid ∧
      aw.alert_type = "weak_encryption" ∧ aw.source = ap.bssid) ∧
    detectCands [] cafeWeakAPs 0 = some [cafeRogue, cafeWeak] := by
  refine ⟨?_, by decide⟩
  intro aw haw
  unfold detectCands at h
  cases ha1 : apScan now aps [] with
  | none => rw [ha1] at h; cases h
  | some l1 =>
    cases ha2 : spoofCands now (ouiGroups devices) with
    | none => rw [ha1, ha2] at h; cases h
    | some l2 =>
      rw [ha1, ha2] at h
      injection h with h'
      subst h'
      have hv : ¬(ap.ssid = "" ∨ ap.bssid = "") := by simp [h1, h2]
      have hmem := apScan_weak_mem now aps [] l1 ap ha1 hap hv hw aw haw
      obtain ⟨hid, hty, -, hsrc, -, -⟩ := weakAlertOf_fields haw
      exact ⟨List.mem_append.mpr (Or.inl hmem), hid, hty, hsrc⟩

/-- C4 witness at the duplicate-SSID WEP scenario. -/
theorem C4_weak_encryption_independent_witness :
    (cafeWeak ∈ ([cafeRogue, cafeWeak] : List Alert) ∧
     cafeWeak.alert_id = "weak_enc_" ++ cafeWAP2.bssid ∧
     cafeWeak.alert_type = "weak_encryption" ∧
     cafeWeak.source = cafeWAP2.bssid) ∧
    detectCands [] cafeWeakAPs 0 = some [cafeRogue, cafeWeak] :=
  ⟨(C4_weak_encryption_independent [] cafeWeakAPs 0 [cafeRogue, cafeWeak] cafeWAP2
      (by decide) (by decide) (by decide) (by decide) (by decide)).1 cafeWeak (by decide),
   (C4_weak_encryption_independent [] cafeWeakAPs 0 [cafeRogue, cafeWeak] cafeWAP2
      (by decide) (by decide) (by decide) (by decide) (by decide)).2⟩

end ScanWifi
